import Mathlib

set_option maxHeartbeats 1000000

/-!
Shallow embedding of the xshare matchmaking core (handlers module and
data-model module of the repository).

JavaScript objects keyed by numeric user/connection ids are embedded as
association lists `List (Nat × α)` with JS-style `obj[k]` lookup,
`obj[k] = v` assignment and `delete obj[k]`.  Socket objects are opaque
transport handles; an emission `user.socket.emit(...)` is recorded as an
`Event` tagged with the recipient's user id.  `setTimeout` callbacks are
modelled as explicit `fire` steps that may be interleaved with the other
operations; each scheduled timer fires exactly once.
-/

/-- JS-object lookup `obj[k]` (also used for the `k in obj` test). -/
def jget {α : Type} : List (Nat × α) → Nat → Option α
  | [], _ => none
  | p :: t, k => if p.1 = k then some p.2 else jget t k

/-- JS `delete obj[k]`. -/
def jdel {α : Type} : List (Nat × α) → Nat → List (Nat × α)
  | [], _ => []
  | p :: t, k => if p.1 = k then jdel t k else p :: jdel t k

/-- JS assignment `obj[k] = v`: afterwards `k` maps to `v` and all other
keys are unchanged.  (Enumeration order of numeric JS keys is ascending
and independent of insertion order, so the list order carries no
semantic weight in this embedding.) -/
def jset {α : Type} (l : List (Nat × α)) (k : Nat) (v : α) : List (Nat × α) :=
  jdel l k ++ [(k, v)]

/-- Structure `UserData` (defined identically in the handlers module and in the
data-model module): all the information of a user.  The socket field is
an opaque transport handle and is represented by the user's id, to which
emissions are addressed. -/
structure UserData where
  id : Nat
  ip : Option String := none
  port : Option Nat := none
  geoLongitude : Option Int := none
  geoLatitude : Option Int := none
  geoAccuracy : Option Int := none
  fileName : Option String := none
  fileSize : Option Nat := none
  deriving DecidableEq

/-- The socket emissions performed by the matchmaking core, tagged with
the id of the socket they are sent to. -/
inductive Event where
  /-- Emission `u.socket.emit('pairFailed')` from the expiry callback. -/
  | pairFailed (toID : Nat)
  /-- Emission `receiver.socket.emit('betrayedSending', {partnerID: sender.id})`. -/
  | betrayedSending (toID : Nat) (partnerID : Nat)
  /-- Emission `sender.socket.emit('betrayedReceiving', {partnerID: receiver.id})`. -/
  | betrayedReceiving (toID : Nat) (partnerID : Nat)
  /-- Emission `socket.emit('startSending', {senderID, receiverID})`. -/
  | startSending (toID : Nat) (senderID : Nat) (receiverID : Nat)
  deriving DecidableEq

/-- The id of the socket an event is emitted to. -/
def Event.toID : Event → Nat
  | .pairFailed t => t
  | .betrayedSending t _ => t
  | .betrayedReceiving t _ => t
  | .startSending t _ _ => t

namespace Users

/-- State of one `Users` waiting pool (`_store`) together with the trace
of `pairFailed` emissions produced by its expiry callbacks. -/
structure UsersState where
  store : List (Nat × UserData)
  events : List Event
  deriving DecidableEq

/-- Method `Users.clear(userID)`: `delete this._store[userID]`. -/
def clear (s : UsersState) (userID : Nat) : UsersState :=
  { s with store := jdel s.store userID }

/-- The store mutation of `Users.addTillExpire(user, callback)`:
`this._store[user.id] = user`.  The scheduled timer body is `fireExpire`
below, which may run at any later step. -/
def addTillExpire (s : UsersState) (user : UserData) : UsersState :=
  { s with store := jset s.store user.id user }

/-- The `setTimeout` body scheduled by `addTillExpire` for `theID`:
`if (theID in store) { callback(store[theID]); delete store[theID]; }`,
with the callback instantiated to the `pairFailed` emission passed by the
miss branches of `onPairToSend` / `onPairToReceive`. -/
def fireExpire (s : UsersState) (theID : Nat) : UsersState :=
  match jget s.store theID with
  | some u =>
      { store := jdel s.store theID
        events := s.events ++ [Event.pairFailed u.id] }
  | none => s

/-- Smallest-key entry of an association list: JS `for (var k in obj)`
enumerates numeric keys in ascending order, so this is the entry the
first loop iteration sees. -/
def minEntry {α : Type} : List (Nat × α) → Option (Nat × α)
  | [] => none
  | p :: t =>
      match minEntry t with
      | none => some p
      | some q => some (if p.1 ≤ q.1 then p else q)

/-- Method `Users.pickUpon(baseUser)`: `for (var uid in this._store) return
this._store[uid];` — returns the first enumerated entry and ignores
`baseUser` entirely; the loop body only reads, so the store is not
mutated and the function is a pure observer of the state. -/
def pickUpon (s : UsersState) (baseUser : UserData) : Option UserData :=
  (minEntry s.store).map Prod.snd

/-- The operations that can touch a waiting pool: an `addTillExpire`
insertion, a `clear`, or the firing of a previously scheduled timer. -/
inductive PoolOp where
  | insert : UserData → PoolOp
  | clearOp : Nat → PoolOp
  | fire : Nat → PoolOp

/-- One pool operation. -/
def stepOp (s : UsersState) : PoolOp → UsersState
  | .insert u => addTillExpire s u
  | .clearOp k => clear s k
  | .fire k => fireExpire s k

/-- Run a sequence of pool operations. -/
def runPool (s : UsersState) : List PoolOp → UsersState
  | [] => s
  | op :: ops => runPool (stepOp s op) ops

/-- The empty pool, as constructed by `new Users()`. -/
def initState : UsersState := ⟨[], []⟩

/-- Number of `pairFailed` events addressed to `uid` in a trace. -/
def pfCount (uid : Nat) : List Event → Nat
  | [] => 0
  | e :: t =>
      (match e with
       | Event.pairFailed u => if u = uid then 1 else 0
       | _ => 0) + pfCount uid t

/-- Insertions contributed by one operation for identity `uid`. -/
def opIns (uid : Nat) : PoolOp → Nat
  | .insert u => if u.id = uid then 1 else 0
  | _ => 0

/-- Number of insertions of identity `uid` in an operation sequence. -/
def insCount (uid : Nat) : List PoolOp → Nat
  | [] => 0
  | op :: t => opIns uid op + insCount uid t

/-- 1 when `uid` is currently in the pool, 0 otherwise. -/
def presence (uid : Nat) (s : UsersState) : Nat :=
  match jget s.store uid with
  | some _ => 1
  | none => 0

/-- The store maps each key to a user bearing that key as id (true of
every store built through `addTillExpire`). -/
def storeWF (s : UsersState) : Prop :=
  ∀ k u, jget s.store k = some u → u.id = k

end Users

namespace Handlers

/-- Structure `Connection` as defined in the handlers module: no identifier field;
constructed by `new Connection()` with both flags false and status
`"INIT"`. -/
structure Connection where
  sender : UserData
  senderConfirmed : Bool := false
  receiver : UserData
  receiverConfirmed : Bool := false
  status : String := "INIT"
  deriving DecidableEq

/-- State of the handlers-module `paired` object.  In the source,
`_connections` maps both `senderID` and `receiverID` to the *same*
mutable `Connection` object; object identity is made explicit here by a
heap of connection objects addressed by an allocation counter `nextRef`,
with `byUser` playing the role of `_connections` (user id to object
reference).  A connection is alive exactly while some `byUser` entry
reaches it; `clear` deletes only the `byUser` keys, matching the JS
`delete` of both dictionary entries (the unreachable object itself is
garbage).  Emissions are appended to `events`. -/
structure PairedState where
  heap : List (Nat × Connection)
  byUser : List (Nat × Nat)
  nextRef : Nat
  events : List Event
  deriving DecidableEq

/-- The empty `paired` registry. -/
def pairedInit : PairedState := ⟨[], [], 0, []⟩

namespace paired

/-- Method `paired.clear(userID)`: if `userID` is not a key, return; otherwise
emit `betrayedSending` to the receiver (when the clearing user is the
sender) or `betrayedReceiving` to the sender (otherwise), then delete
the entries of both participants.  The inner heap lookup cannot fail on
states built by `add`; it returns the state unchanged on the artificial
dangling case. -/
def clear (s : PairedState) (userID : Nat) : PairedState :=
  match jget s.byUser userID with
  | none => s
  | some ref =>
      match jget s.heap ref with
      | none => s
      | some con =>
          { s with
            byUser := jdel (jdel s.byUser con.sender.id) con.receiver.id
            events := s.events ++
              [if userID = con.sender.id then
                 Event.betrayedSending con.receiver.id con.sender.id
               else
                 Event.betrayedReceiving con.sender.id con.receiver.id] }

/-- Method `paired.add(sender, receiver)`: clears both participants, allocates
a fresh `Connection` (flags false, status INIT) and stores it under both
participant ids. -/
def add (s : PairedState) (sender receiver : UserData) : PairedState :=
  let s2 := clear (clear s sender.id) receiver.id
  let con : Connection := { sender := sender, receiver := receiver }
  { heap := jset s2.heap s2.nextRef con
    byUser := jset (jset s2.byUser sender.id s2.nextRef) receiver.id s2.nextRef
    nextRef := s2.nextRef + 1
    events := s2.events }

/-- Method `paired.confirm(myID, partnerID)`: returns unchanged unless both
`myID` and `partnerID` are keys of `_connections`; sets the sender flag
when `sender.id === myID` and the receiver flag otherwise, on the
connection object found under `myID`; when both flags are now true,
emits `startSending` to sender and receiver and sets the status to
`"SENDING"`. -/
def confirm (s : PairedState) (myID partnerID : Nat) : PairedState :=
  match jget s.byUser myID, jget s.byUser partnerID with
  | some ref, some _ =>
      match jget s.heap ref with
      | none => s
      | some con =>
          let con' := if con.sender.id = myID then
              { con with senderConfirmed := true }
            else
              { con with receiverConfirmed := true }
          if con'.senderConfirmed && con'.receiverConfirmed then
            { s with
              heap := jset s.heap ref { con' with status := "SENDING" }
              events := s.events ++
                [Event.startSending con'.sender.id con'.sender.id con'.receiver.id,
                 Event.startSending con'.receiver.id con'.sender.id con'.receiver.id] }
          else
            { s with heap := jset s.heap ref con' }
  | _, _ => s

/-- The status of the connection a user is currently in, if any. -/
def statusOf (s : PairedState) (userID : Nat) : Option String :=
  ((jget s.byUser userID).bind (jget s.heap)).map Connection.status

end paired

/-- The operations the socket handlers invoke on the `paired` registry:
`paired.add` on a successful pairing, `paired.confirm` on a `confirm`
event and `paired.clear` on `confirmFailed` (or a disconnect). -/
inductive PairedOp where
  | addOp : UserData → UserData → PairedOp
  | confirmOp : Nat → Nat → PairedOp
  | clearOp : Nat → PairedOp

/-- One `paired` registry operation. -/
def paired.step (s : PairedState) : PairedOp → PairedState
  | .addOp sen rcv => paired.add s sen rcv
  | .confirmOp myID partnerID => paired.confirm s myID partnerID
  | .clearOp uid => paired.clear s uid

/-- Run a sequence of `paired` registry operations. -/
def paired.run (s : PairedState) : List PairedOp → PairedState
  | [] => s
  | op :: ops => paired.run (paired.step s op) ops

/-- Well-formedness of a `paired` state, capturing the aliasing
discipline the JS code maintains in `_connections`: every entry reaches
a connection object that has the user as a participant and whose two
participants' entries both alias that same object, and every object
reference in use was previously allocated.  Proved to hold in every
reachable state. -/
def pairedWF (s : PairedState) : Prop :=
  (∀ u r, jget s.byUser u = some r →
    ∃ c, jget s.heap r = some c ∧ (u = c.sender.id ∨ u = c.receiver.id) ∧
      jget s.byUser c.sender.id = some r ∧
      jget s.byUser c.receiver.id = some r) ∧
  (∀ u r, jget s.byUser u = some r → r < s.nextRef)

end Handlers

namespace Models

/-- Structure `Connection` as defined in the data-model module: additionally
carries the connection identifier (JS `null` until `Pairs.add` assigns
it). -/
structure Connection where
  id : Option Nat := none
  sender : UserData
  senderConfirmed : Bool := false
  receiver : UserData
  receiverConfirmed : Bool := false
  status : String := "INIT"
  deriving DecidableEq

/-- State of a `Pairs` registry: the private counter `connectionID`, the
primary store `_connections` (connection id to `Connection`) and the
secondary index `_indices` (participant id to connection id). -/
structure PairsState where
  connectionID : Nat
  connections : List (Nat × Connection)
  indices : List (Nat × Nat)
  deriving DecidableEq

namespace Pairs

/-- The fresh registry built by `new Pairs()`. -/
def initState : PairsState := ⟨0, [], []⟩

/-- Method `Pairs.get(conID)`. -/
def get (s : PairsState) (conID : Nat) : Option Connection :=
  jget s.connections conID

/-- Method `Pairs.add(sender, receiver)`: allocates the next id via `_nextID`,
builds the `Connection` with that id (flags false, status INIT), deletes
both participants' index entries, stores the connection under its id and
re-points both index entries to it.  Returns the connection id together
with the new state. -/
def add (s : PairsState) (sender receiver : UserData) : Nat × PairsState :=
  let conID := s.connectionID + 1
  let con : Connection := { id := some conID, sender := sender, receiver := receiver }
  (conID,
   { connectionID := conID
     connections := jset s.connections conID con
     indices :=
       jset (jset (jdel (jdel s.indices sender.id) receiver.id) sender.id conID)
         receiver.id conID })

/-- Method `Pairs.clear(conID, fromUserID, callback)`: no-op when `conID` is
not stored.  The callback is invoked on the other participant when
`fromUserID` is truthy (JS `if (fromUserID)`: skipped when the argument
is absent or `0`); the users the callback was invoked on are returned
alongside the new state.  Finally the connection and both participants'
index entries are deleted. -/
def clear (s : PairsState) (conID : Nat) (fromUserID : Option Nat) :
    PairsState × List UserData :=
  match jget s.connections conID with
  | none => (s, [])
  | some con =>
      let called : List UserData :=
        match fromUserID with
        | none => []
        | some u =>
            if u = 0 then []
            else if u = con.sender.id then [con.receiver] else [con.sender]
      ({ s with
          connections := jdel s.connections conID
          indices := jdel (jdel s.indices con.sender.id) con.receiver.id },
       called)

/-- Method `Pairs.confirm(conID, userID)`: returns `false` and leaves the state
unchanged when `conID` is not stored; otherwise sets `senderConfirmed`
when `sender.id === userID` and `receiverConfirmed` otherwise, and
returns whether both flags are now set. -/
def confirm (s : PairsState) (conID userID : Nat) : Bool × PairsState :=
  match jget s.connections conID with
  | none => (false, s)
  | some con =>
      let con' := if con.sender.id = userID then
          { con with senderConfirmed := true }
        else
          { con with receiverConfirmed := true }
      (con'.senderConfirmed && con'.receiverConfirmed,
       { s with connections := jset s.connections conID con' })

/-- The operations of the `Pairs` registry interface. -/
inductive PairsOp where
  | addOp : UserData → UserData → PairsOp
  | confirmOp : Nat → Nat → PairsOp
  | clearOp : Nat → Option Nat → PairsOp

/-- One registry operation (state part only). -/
def stepOp (s : PairsState) : PairsOp → PairsState
  | .addOp sen rcv => (add s sen rcv).2
  | .confirmOp cid uid => (confirm s cid uid).2
  | .clearOp cid fu => (clear s cid fu).1

/-- Run a sequence of registry operations. -/
def run (s : PairsState) : List PairsOp → PairsState
  | [] => s
  | op :: ops => run (stepOp s op) ops

/-- The index-consistency property asserted of every reachable state:
every live connection has both participants indexed to its id, and every
index entry points to a live connection containing that participant. -/
def indexConsistent (s : PairsState) : Prop :=
  (∀ cid con, jget s.connections cid = some con →
      jget s.indices con.sender.id = some cid ∧
      jget s.indices con.receiver.id = some cid) ∧
  (∀ uid cid, jget s.indices uid = some cid →
      ∃ con, jget s.connections cid = some con ∧
        (con.sender.id = uid ∨ con.receiver.id = uid))

/-- Inductive invariant: the index-to-connection direction together with
the bound that every stored connection id and every indexed id is at
most the allocation counter. -/
def inv (s : PairsState) : Prop :=
  (∀ uid cid, jget s.indices uid = some cid →
      ∃ con, jget s.connections cid = some con ∧
        (con.sender.id = uid ∨ con.receiver.id = uid)) ∧
  (∀ cid con, jget s.connections cid = some con → cid ≤ s.connectionID) ∧
  (∀ uid cid, jget s.indices uid = some cid → cid ≤ s.connectionID)

end Pairs

end Models

/-- Sample user with id 1 (concrete instances for closed statements). -/
def uA : UserData := { id := 1 }

/-- Sample user with id 2. -/
def uB : UserData := { id := 2 }

/-- Sample user with id 5. -/
def uC : UserData := { id := 5 }

/-- Outcome asserted of a double confirmation on a freshly added
connection between `S` and `R`, in both confirmation orders: the first
confirm emits nothing, the second leaves the connection with status
SENDING, and exactly one `startSending` pair (one event to each peer,
carrying the sender and receiver ids) is emitted across the two calls. -/
def doubleConfirmOutcome (s : Handlers.PairedState) (S R : UserData) : Prop :=
  let s0 := Handlers.paired.add s S R
  let sS := Handlers.paired.confirm s0 S.id R.id
  let sSR := Handlers.paired.confirm sS R.id S.id
  let sR := Handlers.paired.confirm s0 R.id S.id
  let sRS := Handlers.paired.confirm sR S.id R.id
  sS.events = s0.events ∧ sR.events = s0.events ∧
  sSR.events = s0.events ++
    [Event.startSending S.id S.id R.id, Event.startSending R.id S.id R.id] ∧
  sRS.events = s0.events ++
    [Event.startSending S.id S.id R.id, Event.startSending R.id S.id R.id] ∧
  Handlers.paired.statusOf sSR S.id = some "SENDING" ∧
  Handlers.paired.statusOf sSR R.id = some "SENDING" ∧
  Handlers.paired.statusOf sRS S.id = some "SENDING" ∧
  Handlers.paired.statusOf sRS R.id = some "SENDING"

/-- The fresh connection `paired.add` builds for `uA` and `uB`. -/
def conAB : Handlers.Connection := { sender := uA, receiver := uB }

/-- The fresh connection `paired.add` builds for `uA` and `uC`. -/
def conAC : Handlers.Connection := { sender := uA, receiver := uC }

/-- A `paired` state holding the single connection `uA`–`uB`. -/
def spAB : Handlers.PairedState := Handlers.paired.add Handlers.pairedInit uA uB

/-- A `paired` state in which the `uA`–`uB` connection has been confirmed
by both sides: flags true, status SENDING. -/
def spSending : Handlers.PairedState :=
  Handlers.paired.confirm (Handlers.paired.confirm spAB 1 2) 2 1

/-- The double-confirmed connection object stored in `spSending`. -/
def conABSending : Handlers.Connection :=
  { sender := uA, senderConfirmed := true,
    receiver := uB, receiverConfirmed := true, status := "SENDING" }

/-- The connection `Pairs.add` stores for `uA` and `uB` as id 1. -/
def mconAB : Models.Connection := { id := some 1, sender := uA, receiver := uB }

/-- A `Pairs` state holding the single connection `uA`–`uB` under id 1. -/
def sqAB : Models.PairsState := (Models.Pairs.add Models.Pairs.initState uA uB).2

/-- State `sqAB` after both participants confirmed through `Pairs.confirm`
(status remains INIT: `Pairs.confirm` leaves the transition to the
caller). -/
def sqBoth : Models.PairsState :=
  (Models.Pairs.confirm (Models.Pairs.confirm sqAB 1 1).2 1 2).2

/-- The connection object stored in `sqBoth`. -/
def mconABBoth : Models.Connection :=
  { id := some 1, sender := uA, senderConfirmed := true,
    receiver := uB, receiverConfirmed := true }

theorem jget_jdel {α : Type} (l : List (Nat × α)) (k k' : Nat) :
    jget (jdel l k) k' = if k' = k then none else jget l k' := by
  induction l with
  | nil => simp [jdel, jget]
  | cons p t ih =>
      by_cases hp : p.1 = k <;> by_cases hk : k' = k <;>
        simp_all [jdel, jget] <;>
        rw [if_neg fun h => hk h.symm]

theorem jget_jset {α : Type} (l : List (Nat × α)) (k k' : Nat) (v : α) :
    jget (jset l k v) k' = if k' = k then some v else jget l k' := by
  induction l with
  | nil =>
      by_cases hk : k' = k
      · subst hk; simp [jset, jdel, jget]
      · simp [jset, jdel, jget, hk, Ne.symm hk]
  | cons p t ih =>
      by_cases hp : p.1 = k <;> by_cases hk : k' = k <;>
        simp_all [jset, jdel, jget] <;>
        rw [if_neg fun h => hk h.symm]

theorem pfCount_append (uid : Nat) (l l' : List Event) :
    Users.pfCount uid (l ++ l') = Users.pfCount uid l + Users.pfCount uid l' := by
  induction l with
  | nil => simp [Users.pfCount]
  | cons e t ih => simp [Users.pfCount, ih]; omega

theorem users_storeWF_step (s : Users.UsersState) (op : Users.PoolOp)
    (h : Users.storeWF s) : Users.storeWF (Users.stepOp s op) := by
  cases op with
  | insert u =>
      intro k w hw
      simp only [Users.stepOp, Users.addTillExpire] at hw
      rw [jget_jset] at hw
      by_cases hk : k = u.id
      · rw [if_pos hk] at hw
        cases hw
        exact hk.symm
      · rw [if_neg hk] at hw
        exact h k w hw
  | clearOp x =>
      intro k w hw
      simp only [Users.stepOp, Users.clear] at hw
      rw [jget_jdel] at hw
      by_cases hk : k = x
      · rw [if_pos hk] at hw; cases hw
      · rw [if_neg hk] at hw
        exact h k w hw
  | fire x =>
      intro k w hw
      simp only [Users.stepOp, Users.fireExpire] at hw
      cases hj : jget s.store x with
      | none =>
          rw [hj] at hw
          exact h k w hw
      | some u =>
          rw [hj] at hw
          simp only at hw
          rw [jget_jdel] at hw
          by_cases hk : k = x
          · rw [if_pos hk] at hw; cases hw
          · rw [if_neg hk] at hw
            exact h k w hw

theorem users_step_bound (s : Users.UsersState) (op : Users.PoolOp) (uid : Nat)
    (h : Users.storeWF s) :
    Users.pfCount uid (Users.stepOp s op).events +
        Users.presence uid (Users.stepOp s op) ≤
      Users.pfCount uid s.events + Users.presence uid s + Users.opIns uid op := by
  cases op with
  | insert u =>
      by_cases hk : uid = u.id <;>
        simp [Users.stepOp, Users.addTillExpire, Users.presence, Users.opIns,
          jget_jset, hk] <;> omega
  | clearOp x =>
      by_cases hk : uid = x <;>
        simp [Users.stepOp, Users.clear, Users.presence, Users.opIns,
          jget_jdel, hk] <;> omega
  | fire x =>
      cases hj : jget s.store x with
      | none =>
          simp [Users.stepOp, Users.fireExpire, hj, Users.opIns]
      | some u =>
          have hu : u.id = x := h x u hj
          by_cases hk : uid = x <;>
            simp [Users.stepOp, Users.fireExpire, hj, Users.presence, Users.opIns,
              pfCount_append, Users.pfCount, jget_jdel, hu, hk] <;> omega

theorem users_pool_bound (ops : List Users.PoolOp) :
    ∀ s : Users.UsersState, Users.storeWF s → ∀ uid : Nat,
      Users.pfCount uid (Users.runPool s ops).events +
          Users.presence uid (Users.runPool s ops) ≤
        Users.pfCount uid s.events + Users.presence uid s +
          Users.insCount uid ops := by
  induction ops with
  | nil =>
      intro s _ uid
      simp [Users.runPool, Users.insCount]
  | cons op t ih =>
      intro s hwf uid
      have h1 := ih (Users.stepOp s op) (users_storeWF_step s op hwf) uid
      have h2 := users_step_bound s op uid hwf
      simp only [Users.runPool, Users.insCount]
      omega

theorem minEntry_eq_none {α : Type} (l : List (Nat × α)) :
    Users.minEntry l = none ↔ l = [] := by
  cases l with
  | nil => simp [Users.minEntry]
  | cons p t => cases hm : Users.minEntry t <;> simp [Users.minEntry, hm]

/-- C2 (amended): re-inserting an identity does not cancel the earlier
timer, but at most one expiry notification is delivered per insertion
generation: across any sequence of pool operations starting from the
empty pool, the number of `pairFailed` notifications delivered to an
identity never exceeds the number of insertions of that identity,
because every delivery removes the entry it notified. -/
theorem C2_at_most_one_notification_per_insertion
    (ops : List Users.PoolOp) (uid : Nat) :
    Users.pfCount uid (Users.runPool Users.initState ops).events ≤
      Users.insCount uid ops := by
  have h := users_pool_bound ops Users.initState
    (by intro k u hk; simp [Users.initState, jget] at hk) uid
  have h0 : Users.pfCount uid Users.initState.events = 0 := rfl
  have h1 : Users.presence uid Users.initState = 0 := rfl
  omega

/-- C2 counterexample: after inserting identity 5 and re-inserting it
before the earlier timer fires, the earlier timer's fire is not a
no-op — it changes the state, delivers a `pairFailed` notification and
removes the re-inserted entry — refuting the claim that re-insertion
cancels the prior timer or makes its fire a no-op. -/
theorem C2_counterexample :
    Users.fireExpire (Users.runPool Users.initState
        [Users.PoolOp.insert uC, Users.PoolOp.insert uC]) 5 ≠
      Users.runPool Users.initState
        [Users.PoolOp.insert uC, Users.PoolOp.insert uC] ∧
    (Users.fireExpire (Users.runPool Users.initState
        [Users.PoolOp.insert uC, Users.PoolOp.insert uC]) 5).events =
      [Event.pairFailed 5] ∧
    jget (Users.fireExpire (Users.runPool Users.initState
        [Users.PoolOp.insert uC, Users.PoolOp.insert uC]) 5).store 5 = none := by
  decide

/-- C3: a peer inserted into a waiting pool on a pairing miss whose
timer fires with no intervening matching request receives exactly one
`pairFailed` notification and its entry is removed from the pool; a
further fire of the same timer id delivers nothing further. -/
theorem C3_expiry_notifies_once_and_removes (u : UserData) :
    (Users.runPool Users.initState
        [Users.PoolOp.insert u, Users.PoolOp.fire u.id]).events =
      [Event.pairFailed u.id] ∧
    jget (Users.runPool Users.initState
        [Users.PoolOp.insert u, Users.PoolOp.fire u.id]).store u.id = none ∧
    (Users.runPool Users.initState
        [Users.PoolOp.insert u, Users.PoolOp.fire u.id,
         Users.PoolOp.fire u.id]).events = [Event.pairFailed u.id] := by
  simp [Users.runPool, Users.stepOp, Users.addTillExpire, Users.fireExpire,
    Users.initState, jset, jdel, jget]

/-- C8: `Users.pickUpon` ignores the requesting peer entirely — any two
base users (in particular any two geolocations) yield the same picked
entry; it returns at most one element (an `Option`), a not-found result
exactly when the pool is empty, and, being a pure observer of the state,
does not mutate the pool. -/
theorem C8_pick_first_available (s : Users.UsersState) (u1 u2 : UserData) :
    Users.pickUpon s u1 = Users.pickUpon s u2 ∧
    (Users.pickUpon s u1 = none ↔ s.store = []) := by
  refine ⟨rfl, ?_⟩
  simp [Users.pickUpon, Option.map_eq_none', minEntry_eq_none]

/-- C5: on a freshly added connection between sender `S` and receiver
`R`, confirming S-then-R and R-then-S both leave the connection with
status SENDING after the second confirm, and across the two confirm
calls exactly one `startSending` pair of notifications (one to each
peer, carrying the sender and receiver ids) is emitted in total — the
first confirm emits nothing. -/
theorem C5_double_confirm_commutative (s : Handlers.PairedState) (S R : UserData)
    (h : S.id ≠ R.id) : doubleConfirmOutcome s S R := by
  simp only [doubleConfirmOutcome]
  simp [Handlers.paired.add, Handlers.paired.confirm, Handlers.paired.statusOf,
    jget_jset, h, Ne.symm h]

theorem C5_witness :
    uA.id ≠ uB.id ∧ doubleConfirmOutcome Handlers.pairedInit uA uB :=
  ⟨by decide, C5_double_confirm_commutative Handlers.pairedInit uA uB (by decide)⟩

/-- C6: confirming or clearing a connection id (or participant id) that
does not resolve to a stored connection is a silent no-op in both
registries: `paired.clear` and `paired.confirm` leave the state
unchanged, `Pairs.clear` leaves the state unchanged and invokes no
callback, and `Pairs.confirm` returns `false` with the state
unchanged. -/
theorem C6_missing_id_silent_noop (sp : Handlers.PairedState)
    (uid myID partnerID : Nat) (sq : Models.PairsState) (cid uidQ : Nat)
    (fu : Option Nat) :
    (jget sp.byUser uid = none → Handlers.paired.clear sp uid = sp) ∧
    (jget sp.byUser myID = none ∨ jget sp.byUser partnerID = none →
      Handlers.paired.confirm sp myID partnerID = sp) ∧
    (jget sq.connections cid = none → Models.Pairs.clear sq cid fu = (sq, [])) ∧
    (jget sq.connections cid = none →
      Models.Pairs.confirm sq cid uidQ = (false, sq)) := by
  refine ⟨?_, ?_, ?_, ?_⟩
  · intro h
    simp [Handlers.paired.clear, h]
  · intro h
    rcases h with h | h
    · simp [Handlers.paired.confirm, h]
    · cases hm : jget sp.byUser myID <;> simp [Handlers.paired.confirm, h, hm]
  · intro h
    simp [Models.Pairs.clear, h]
  · intro h
    simp [Models.Pairs.confirm, h]

theorem C6_witness :
    (jget Handlers.pairedInit.byUser 1 = none ∧
      Handlers.paired.clear Handlers.pairedInit 1 = Handlers.pairedInit) ∧
    (jget Handlers.pairedInit.byUser 1 = none ∧
      Handlers.paired.confirm Handlers.pairedInit 1 2 = Handlers.pairedInit) ∧
    (jget Models.Pairs.initState.connections 3 = none ∧
      Models.Pairs.clear Models.Pairs.initState 3 (some 1) =
        (Models.Pairs.initState, [])) ∧
    (jget Models.Pairs.initState.connections 3 = none ∧
      Models.Pairs.confirm Models.Pairs.initState 3 1 =
        (false, Models.Pairs.initState)) := by
  have h := C6_missing_id_silent_noop Handlers.pairedInit 1 1 2
    Models.Pairs.initState 3 1 (some 1)
  exact ⟨⟨by decide, h.1 (by decide)⟩,
    ⟨by decide, h.2.1 (Or.inl (by decide))⟩,
    ⟨by decide, h.2.2.1 (by decide)⟩,
    ⟨by decide, h.2.2.2 (by decide)⟩⟩

/-- C7: for an active connection with distinct participants, a clear
carrying an abandoning participant id delivers the betrayal
notification only to the other participant — the event's target is
never the abandoning peer — in both `paired.clear` (which emits
`betrayedSending`/`betrayedReceiving`) and `Pairs.clear` (which invokes
the callback on the surviving user). -/
theorem C7_betrayal_targets_survivor
    (sp : Handlers.PairedState) (uid ref : Nat) (con : Handlers.Connection)
    (h1 : jget sp.byUser uid = some ref) (h2 : jget sp.heap ref = some con)
    (hne : con.sender.id ≠ con.receiver.id)
    (sq : Models.PairsState) (cid u : Nat) (conQ : Models.Connection)
    (g1 : jget sq.connections cid = some conQ) (hu : u ≠ 0)
    (gne : conQ.sender.id ≠ conQ.receiver.id) :
    ((Handlers.paired.clear sp uid).events = sp.events ++
        [if uid = con.sender.id then
           Event.betrayedSending con.receiver.id con.sender.id
         else
           Event.betrayedReceiving con.sender.id con.receiver.id] ∧
      Event.toID (if uid = con.sender.id then
           Event.betrayedSending con.receiver.id con.sender.id
         else
           Event.betrayedReceiving con.sender.id con.receiver.id) ≠ uid) ∧
    ((Models.Pairs.clear sq cid (some u)).2 =
        [if u = conQ.sender.id then conQ.receiver else conQ.sender] ∧
      (if u = conQ.sender.id then conQ.receiver else conQ.sender).id ≠ u) := by
  refine ⟨⟨?_, ?_⟩, ?_, ?_⟩
  · simp [Handlers.paired.clear, h1, h2]
  · by_cases hc : uid = con.sender.id
    · subst hc
      simp [Event.toID]
      exact Ne.symm hne
    · simp [hc, Event.toID]
      exact fun hh => hc hh.symm
  · simp [Models.Pairs.clear, g1, hu]
    split <;> rfl
  · by_cases hcq : u = conQ.sender.id
    · subst hcq
      simp
      exact Ne.symm gne
    · simp [hcq]
      exact fun hh => hcq hh.symm

theorem C7_witness :
    jget spAB.byUser 1 = some 0 ∧ jget spAB.heap 0 = some conAB ∧
    conAB.sender.id ≠ conAB.receiver.id ∧
    jget sqAB.connections 1 = some mconAB ∧ (2 : Nat) ≠ 0 ∧
    mconAB.sender.id ≠ mconAB.receiver.id ∧
    (((Handlers.paired.clear spAB 1).events = spAB.events ++
        [if 1 = conAB.sender.id then
           Event.betrayedSending conAB.receiver.id conAB.sender.id
         else
           Event.betrayedReceiving conAB.sender.id conAB.receiver.id] ∧
      Event.toID (if 1 = conAB.sender.id then
           Event.betrayedSending conAB.receiver.id conAB.sender.id
         else
           Event.betrayedReceiving conAB.sender.id conAB.receiver.id) ≠ 1) ∧
     ((Models.Pairs.clear sqAB 1 (some 2)).2 =
        [if 2 = mconAB.sender.id then mconAB.receiver else mconAB.sender] ∧
      (if 2 = mconAB.sender.id then mconAB.receiver else mconAB.sender).id ≠ 2)) :=
  ⟨by decide, by decide, by decide, by decide, by decide, by decide,
    C7_betrayal_targets_survivor spAB 1 0 conAB (by decide) (by decide)
      (by decide) sqAB 1 2 mconAB (by decide) (by decide) (by decide)⟩

/-- C9: clearing an active connection with an abandoning peer id emits
the betrayal notification (or invokes the `onAbandon` callback on the
other participant) with no precondition on the connection's confirmation
flags or status — the statement carries no hypothesis about them, so it
applies in particular to a fully double-confirmed SENDING connection. -/
theorem C9_clear_notifies_regardless_of_status
    (sp : Handlers.PairedState) (uid ref : Nat) (con : Handlers.Connection)
    (h1 : jget sp.byUser uid = some ref) (h2 : jget sp.heap ref = some con)
    (sq : Models.PairsState) (cid u : Nat) (conQ : Models.Connection)
    (g1 : jget sq.connections cid = some conQ) (hu : u ≠ 0) :
    (Handlers.paired.clear sp uid).events = sp.events ++
      [if uid = con.sender.id then
         Event.betrayedSending con.receiver.id con.sender.id
       else
         Event.betrayedReceiving con.sender.id con.receiver.id] ∧
    (Models.Pairs.clear sq cid (some u)).2 =
      [if u = conQ.sender.id then conQ.receiver else conQ.sender] := by
  constructor
  · simp [Handlers.paired.clear, h1, h2]
  · simp [Models.Pairs.clear, g1, hu]
    split <;> rfl

theorem C9_witness :
    jget spSending.byUser 2 = some 0 ∧
    jget spSending.heap 0 = some conABSending ∧
    jget sqBoth.connections 1 = some mconABBoth ∧ (1 : Nat) ≠ 0 ∧
    ((Handlers.paired.clear spSending 2).events = spSending.events ++
      [if 2 = conABSending.sender.id then
         Event.betrayedSending conABSending.receiver.id conABSending.sender.id
       else
         Event.betrayedReceiving conABSending.sender.id conABSending.receiver.id] ∧
    (Models.Pairs.clear sqBoth 1 (some 1)).2 =
      [if 1 = mconABBoth.sender.id then mconABBoth.receiver
       else mconABBoth.sender]) :=
  ⟨by decide, by decide, by decide, by decide,
    C9_clear_notifies_regardless_of_status spSending 2 0 conABSending
      (by decide) (by decide) sqBoth 1 1 mconABBoth (by decide) (by decide)⟩

/-- C10: `Pairs.confirm` chooses the confirming side solely by
comparison with the sender's id: any `userID` different from the
connection's sender id — including an id belonging to neither
participant — sets `receiverConfirmed` to true (and the call returns
whether the sender flag was already set). -/
theorem C10_confirm_nonsender_sets_receiver_flag
    (sq : Models.PairsState) (cid userID : Nat) (con : Models.Connection)
    (h : jget sq.connections cid = some con) (hne : userID ≠ con.sender.id) :
    (Models.Pairs.confirm sq cid userID).1 = con.senderConfirmed ∧
    jget (Models.Pairs.confirm sq cid userID).2.connections cid =
      some { con with receiverConfirmed := true } := by
  constructor <;> simp [Models.Pairs.confirm, h, Ne.symm hne, jget_jset]

theorem C10_witness :
    jget sqAB.connections 1 = some mconAB ∧ (99 : Nat) ≠ mconAB.sender.id ∧
    ((Models.Pairs.confirm sqAB 1 99).1 = mconAB.senderConfirmed ∧
     jget (Models.Pairs.confirm sqAB 1 99).2.connections 1 =
       some { mconAB with receiverConfirmed := true }) :=
  ⟨by decide, by decide,
    C10_confirm_nonsender_sets_receiver_flag sqAB 1 99 mconAB
      (by decide) (by decide)⟩

theorem paired_clear_byUser_none (s : Handlers.PairedState) (x q : Nat)
    (h : jget s.byUser q = none) :
    jget (Handlers.paired.clear s x).byUser q = none := by
  cases h1 : jget s.byUser x with
  | none => simp [Handlers.paired.clear, h1, h]
  | some ref =>
      cases h2 : jget s.heap ref with
      | none => simp [Handlers.paired.clear, h1, h2, h]
      | some con => simp [Handlers.paired.clear, h1, h2, jget_jdel, h]

theorem paired_wf_self_clear (s : Handlers.PairedState) (x : Nat)
    (hwf : Handlers.pairedWF s) :
    jget (Handlers.paired.clear s x).byUser x = none := by
  cases hx : jget s.byUser x with
  | none => simp [Handlers.paired.clear, hx]
  | some ref =>
      obtain ⟨c, hcheap, hpart, _, _⟩ := hwf.1 x ref hx
      have hby : (Handlers.paired.clear s x).byUser =
          jdel (jdel s.byUser c.sender.id) c.receiver.id := by
        simp [Handlers.paired.clear, hx, hcheap]
      rw [hby, jget_jdel]
      rcases hpart with hp | hp
      · by_cases h1 : x = c.receiver.id
        · rw [if_pos h1]
        · rw [if_neg h1, jget_jdel, if_pos hp]
      · rw [if_pos hp]

theorem paired_wf_clear (s : Handlers.PairedState) (x : Nat)
    (hwf : Handlers.pairedWF s) :
    Handlers.pairedWF (Handlers.paired.clear s x) := by
  obtain ⟨h1, h2⟩ := hwf
  cases hx : jget s.byUser x with
  | none => simpa [Handlers.paired.clear, hx] using ⟨h1, h2⟩
  | some ref =>
      cases hH : jget s.heap ref with
      | none => simpa [Handlers.paired.clear, hx, hH] using ⟨h1, h2⟩
      | some con =>
          obtain ⟨cx, hcxheap, _, hcs, hcr⟩ := h1 x ref hx
          rw [hH] at hcxheap
          have hcx : cx = con := (Option.some.inj hcxheap).symm
          rw [hcx] at hcs hcr
          have hby : (Handlers.paired.clear s x).byUser =
              jdel (jdel s.byUser con.sender.id) con.receiver.id := by
            simp [Handlers.paired.clear, hx, hH]
          have hhp : (Handlers.paired.clear s x).heap = s.heap := by
            simp [Handlers.paired.clear, hx, hH]
          have hnr : (Handlers.paired.clear s x).nextRef = s.nextRef := by
            simp [Handlers.paired.clear, hx, hH]
          constructor
          · intro u r hu
            rw [hby, jget_jdel] at hu
            by_cases hu1 : u = con.receiver.id
            · rw [if_pos hu1] at hu; cases hu
            · rw [if_neg hu1, jget_jdel] at hu
              by_cases hu2 : u = con.sender.id
              · rw [if_pos hu2] at hu; cases hu
              · rw [if_neg hu2] at hu
                obtain ⟨c, hcheap, hpart, hb1, hb2⟩ := h1 u r hu
                have hrne : r ≠ ref := by
                  intro hE
                  rw [hE, hH] at hcheap
                  have hcc : c = con := (Option.some.inj hcheap).symm
                  rw [hcc] at hpart
                  rcases hpart with hp | hp
                  · exact hu2 hp
                  · exact hu1 hp
                have hcs1 : c.sender.id ≠ con.sender.id := by
                  intro hE
                  rw [hE, hcs] at hb1
                  exact hrne (Option.some.inj hb1).symm
                have hcs2 : c.sender.id ≠ con.receiver.id := by
                  intro hE
                  rw [hE, hcr] at hb1
                  exact hrne (Option.some.inj hb1).symm
                have hcr1 : c.receiver.id ≠ con.sender.id := by
                  intro hE
                  rw [hE, hcs] at hb2
                  exact hrne (Option.some.inj hb2).symm
                have hcr2 : c.receiver.id ≠ con.receiver.id := by
                  intro hE
                  rw [hE, hcr] at hb2
                  exact hrne (Option.some.inj hb2).symm
                refine ⟨c, ?_, hpart, ?_, ?_⟩
                · rw [hhp]; exact hcheap
                · rw [hby, jget_jdel, if_neg hcs2, jget_jdel, if_neg hcs1]
                  exact hb1
                · rw [hby, jget_jdel, if_neg hcr2, jget_jdel, if_neg hcr1]
                  exact hb2
          · intro u r hu
            rw [hby, jget_jdel] at hu
            by_cases hu1 : u = con.receiver.id
            · rw [if_pos hu1] at hu; cases hu
            · rw [if_neg hu1, jget_jdel] at hu
              by_cases hu2 : u = con.sender.id
              · rw [if_pos hu2] at hu; cases hu
              · rw [if_neg hu2] at hu
                rw [hnr]
                exact h2 u r hu

theorem paired_wf_heapset (s : Handlers.PairedState) (ref : Nat)
    (con con2 : Handlers.Connection) (evs : List Event)
    (hH : jget s.heap ref = some con)
    (hs : con2.sender = con.sender) (hr : con2.receiver = con.receiver)
    (hwf : Handlers.pairedWF s) :
    Handlers.pairedWF
      { s with heap := jset s.heap ref con2, events := evs } := by
  obtain ⟨h1, h2⟩ := hwf
  constructor
  · intro u r hu
    obtain ⟨c, hcheap, hpart, hb1, hb2⟩ := h1 u r hu
    by_cases hrr : r = ref
    · have hcc : c = con := by
        rw [hrr, hH] at hcheap
        exact (Option.some.inj hcheap).symm
      refine ⟨con2, ?_, ?_, ?_, ?_⟩
      · show jget (jset s.heap ref con2) r = some con2
        rw [jget_jset, if_pos hrr]
      · rw [hs, hr]
        rw [hcc] at hpart
        exact hpart
      · show jget s.byUser con2.sender.id = some r
        rw [hs]
        rw [hcc] at hb1
        exact hb1
      · show jget s.byUser con2.receiver.id = some r
        rw [hr]
        rw [hcc] at hb2
        exact hb2
    · refine ⟨c, ?_, hpart, hb1, hb2⟩
      show jget (jset s.heap ref con2) r = some c
      rw [jget_jset, if_neg hrr]
      exact hcheap
  · intro u r hu
    exact h2 u r hu

theorem paired_wf_confirm (s : Handlers.PairedState) (myID partnerID : Nat)
    (hwf : Handlers.pairedWF s) :
    Handlers.pairedWF (Handlers.paired.confirm s myID partnerID) := by
  cases hm : jget s.byUser myID with
  | none => simpa [Handlers.paired.confirm, hm] using hwf
  | some ref =>
      cases hp : jget s.byUser partnerID with
      | none => simpa [Handlers.paired.confirm, hm, hp] using hwf
      | some r2 =>
          cases hH : jget s.heap ref with
          | none => simpa [Handlers.paired.confirm, hm, hp, hH] using hwf
          | some con =>
              simp only [Handlers.paired.confirm, hm, hp, hH]
              by_cases hc : con.sender.id = myID
              · rw [if_pos hc]
                split
                · exact paired_wf_heapset s ref con _ _ hH rfl rfl hwf
                · exact paired_wf_heapset s ref con _ _ hH rfl rfl hwf
              · rw [if_neg hc]
                split
                · exact paired_wf_heapset s ref con _ _ hH rfl rfl hwf
                · exact paired_wf_heapset s ref con _ _ hH rfl rfl hwf

theorem paired_wf_add (s : Handlers.PairedState) (sen rcv : UserData)
    (hwf : Handlers.pairedWF s) :
    Handlers.pairedWF (Handlers.paired.add s sen rcv) := by
  have hwf1 := paired_wf_clear s sen.id hwf
  have hwf2 := paired_wf_clear _ rcv.id hwf1
  have habsS : jget (Handlers.paired.clear (Handlers.paired.clear s sen.id)
      rcv.id).byUser sen.id = none :=
    paired_clear_byUser_none _ rcv.id sen.id (paired_wf_self_clear s sen.id hwf)
  have habsR : jget (Handlers.paired.clear (Handlers.paired.clear s sen.id)
      rcv.id).byUser rcv.id = none :=
    paired_wf_self_clear _ rcv.id hwf1
  obtain ⟨h1, h2⟩ := hwf2
  constructor
  · intro u r hu
    simp only [Handlers.paired.add] at hu ⊢
    rw [jget_jset] at hu
    by_cases huR : u = rcv.id
    · rw [if_pos huR] at hu
      cases hu
      refine ⟨Handlers.Connection.mk sen false rcv false "INIT", ?_,
        Or.inr huR, ?_, ?_⟩
      · rw [jget_jset, if_pos rfl]
      · show jget (jset (jset _ sen.id _) rcv.id _) sen.id = _
        rw [jget_jset]
        by_cases hsr : sen.id = rcv.id
        · rw [if_pos hsr]
        · rw [if_neg hsr, jget_jset, if_pos rfl]
      · rw [jget_jset, if_pos rfl]
    · rw [if_neg huR, jget_jset] at hu
      by_cases huS : u = sen.id
      · rw [if_pos huS] at hu
        cases hu
        refine ⟨Handlers.Connection.mk sen false rcv false "INIT", ?_,
          Or.inl huS, ?_, ?_⟩
        · rw [jget_jset, if_pos rfl]
        · show jget (jset (jset _ sen.id _) rcv.id _) sen.id = _
          rw [jget_jset]
          by_cases hsr : sen.id = rcv.id
          · rw [if_pos hsr]
          · rw [if_neg hsr, jget_jset, if_pos rfl]
        · rw [jget_jset, if_pos rfl]
      · rw [if_neg huS] at hu
        obtain ⟨c, hcheap, hpart, hb1, hb2⟩ := h1 u r hu
        have hrn : r ≠ (Handlers.paired.clear (Handlers.paired.clear s sen.id)
            rcv.id).nextRef := Nat.ne_of_lt (h2 u r hu)
        have hcsS : c.sender.id ≠ sen.id := by
          intro hE
          rw [hE, habsS] at hb1
          cases hb1
        have hcsR : c.sender.id ≠ rcv.id := by
          intro hE
          rw [hE, habsR] at hb1
          cases hb1
        have hcrS : c.receiver.id ≠ sen.id := by
          intro hE
          rw [hE, habsS] at hb2
          cases hb2
        have hcrR : c.receiver.id ≠ rcv.id := by
          intro hE
          rw [hE, habsR] at hb2
          cases hb2
        refine ⟨c, ?_, hpart, ?_, ?_⟩
        · rw [jget_jset, if_neg hrn]
          exact hcheap
        · rw [jget_jset, if_neg hcsR, jget_jset, if_neg hcsS]
          exact hb1
        · rw [jget_jset, if_neg hcrR, jget_jset, if_neg hcrS]
          exact hb2
  · intro u r hu
    simp only [Handlers.paired.add] at hu ⊢
    rw [jget_jset] at hu
    by_cases huR : u = rcv.id
    · rw [if_pos huR] at hu
      cases hu
      exact Nat.lt_succ_self _
    · rw [if_neg huR, jget_jset] at hu
      by_cases huS : u = sen.id
      · rw [if_pos huS] at hu
        cases hu
        exact Nat.lt_succ_self _
      · rw [if_neg huS] at hu
        exact Nat.lt_succ_of_lt (h2 u r hu)

theorem paired_wf_step (s : Handlers.PairedState) (op : Handlers.PairedOp)
    (hwf : Handlers.pairedWF s) :
    Handlers.pairedWF (Handlers.paired.step s op) := by
  cases op with
  | addOp sen rcv => exact paired_wf_add s sen rcv hwf
  | confirmOp myID partnerID => exact paired_wf_confirm s myID partnerID hwf
  | clearOp uid => exact paired_wf_clear s uid hwf

theorem paired_wf_init : Handlers.pairedWF Handlers.pairedInit := by
  constructor <;> intro u r hu <;> simp [Handlers.pairedInit, jget] at hu

theorem paired_wf_run (ops : List Handlers.PairedOp) :
    ∀ s : Handlers.PairedState, Handlers.pairedWF s →
      Handlers.pairedWF (Handlers.paired.run s ops) := by
  induction ops with
  | nil => intro s h; simpa [Handlers.paired.run] using h
  | cons op t ih =>
      intro s h
      simp only [Handlers.paired.run]
      exact ih _ (paired_wf_step s op h)

theorem paired_wf_reachable (ops : List Handlers.PairedOp) :
    Handlers.pairedWF (Handlers.paired.run Handlers.pairedInit ops) :=
  paired_wf_run ops Handlers.pairedInit paired_wf_init

theorem paired_add_supersedes (sp : Handlers.PairedState)
    (hwf : Handlers.pairedWF sp) (S2 R2 : UserData) (ref0 q : Nat)
    (oldCon : Handlers.Connection)
    (hsp : jget sp.byUser S2.id = some ref0 ∨
      jget sp.byUser R2.id = some ref0)
    (hheap : jget sp.heap ref0 = some oldCon)
    (hq : q = oldCon.sender.id ∨ q = oldCon.receiver.id)
    (hqS : q ≠ S2.id) (hqR : q ≠ R2.id) :
    jget (Handlers.paired.add sp S2 R2).byUser q = none := by
  have key : jget (Handlers.paired.clear (Handlers.paired.clear sp S2.id)
      R2.id).byUser q = none := by
    rcases hsp with hok | hok
    · have h1 : jget (Handlers.paired.clear sp S2.id).byUser q = none := by
        rcases hq with hq | hq <;>
          simp [Handlers.paired.clear, hok, hheap, jget_jdel, hq]
      exact paired_clear_byUser_none _ R2.id q h1
    · cases hS : jget sp.byUser S2.id with
      | none =>
          have hs1 : Handlers.paired.clear sp S2.id = sp := by
            simp [Handlers.paired.clear, hS]
          rw [hs1]
          rcases hq with hq | hq <;>
            simp [Handlers.paired.clear, hok, hheap, jget_jdel, hq]
      | some refS =>
          cases hH : jget sp.heap refS with
          | none =>
              have hs1 : Handlers.paired.clear sp S2.id = sp := by
                simp [Handlers.paired.clear, hS, hH]
              rw [hs1]
              rcases hq with hq | hq <;>
                simp [Handlers.paired.clear, hok, hheap, jget_jdel, hq]
          | some conX =>
              obtain ⟨cx, hcxheap, _, hcxs, hcxr⟩ := hwf.1 S2.id refS hS
              rw [hH] at hcxheap
              have hcx : cx = conX := (Option.some.inj hcxheap).symm
              rw [hcx] at hcxs hcxr
              by_cases hrx : R2.id = conX.sender.id ∨ R2.id = conX.receiver.id
              · have hR' : jget sp.byUser R2.id = some refS := by
                  rcases hrx with h | h
                  · rw [h]; exact hcxs
                  · rw [h]; exact hcxr
                rw [hok] at hR'
                have hre : refS = ref0 := (Option.some.inj hR').symm
                have hS' : jget sp.byUser S2.id = some ref0 := hre ▸ hS
                have h1 : jget (Handlers.paired.clear sp S2.id).byUser q =
                    none := by
                  rcases hq with hq | hq <;>
                    simp [Handlers.paired.clear, hS', hheap, jget_jdel, hq]
                exact paired_clear_byUser_none _ R2.id q h1
              · push_neg at hrx
                obtain ⟨hr1, hr2⟩ := hrx
                have hR1 : jget (Handlers.paired.clear sp S2.id).byUser R2.id =
                    some ref0 := by
                  simp [Handlers.paired.clear, hS, hH, jget_jdel, hr1, hr2, hok]
                have hH1 : jget (Handlers.paired.clear sp S2.id).heap ref0 =
                    some oldCon := by
                  simp [Handlers.paired.clear, hS, hH, hheap]
                set t := Handlers.paired.clear sp S2.id with hT
                rcases hq with hq | hq <;>
                  simp [Handlers.paired.clear, hR1, hH1, jget_jdel, hq]
  simp [Handlers.paired.add, jget_jset, hqS, hqR, key]

/-- C4 counterexample: after `Pairs.add(uA, uB)` (id 1) a second
`Pairs.add(uA, uB)` (id 2) for the very same participants leaves the
pre-existing connection 1 in the primary store — `Pairs.add` does not
clear it, refuting the claim that adding a connection for a peer already
in an active connection clears that pre-existing connection; only the
index entries are re-pointed (here both to id 2). -/
theorem C4_counterexample :
    jget (Models.Pairs.run Models.Pairs.initState
        [Models.Pairs.PairsOp.addOp uA uB,
         Models.Pairs.PairsOp.addOp uA uB]).connections 1 ≠ none ∧
    jget (Models.Pairs.run Models.Pairs.initState
        [Models.Pairs.PairsOp.addOp uA uB,
         Models.Pairs.PairsOp.addOp uA uB]).indices 1 = some 2 := by
  decide

/-- C4 (amended): `Pairs.add` allocates a fresh monotonically increasing
identifier (the incremented private counter), stores the connection with
both confirmation flags false and status INIT, and points both
participants' index entries to the new id (so no participant is ever
indexed into two connections at once), but does not remove a
pre-existing connection from the primary store; the handlers' dual
`paired.add`, in every reachable `paired` registry state, does clear any
pre-existing connection for either participant — whether the new sender
or the new receiver was in it, a participant of that superseded
connection other than the two being paired is no longer in any
connection afterwards — and stores the new connection with flags false
and status INIT (but has no identifier). -/
theorem C4_add_allocation_and_supersede
    (sq : Models.PairsState) (S R : UserData)
    (ops : List Handlers.PairedOp) (S2 R2 : UserData) (ref0 q : Nat)
    (oldCon : Handlers.Connection)
    (hsp : jget (Handlers.paired.run Handlers.pairedInit ops).byUser S2.id =
        some ref0 ∨
      jget (Handlers.paired.run Handlers.pairedInit ops).byUser R2.id =
        some ref0)
    (hheap : jget (Handlers.paired.run Handlers.pairedInit ops).heap ref0 =
      some oldCon)
    (hq : q = oldCon.sender.id ∨ q = oldCon.receiver.id)
    (hqS : q ≠ S2.id) (hqR : q ≠ R2.id) (h2 : S2.id ≠ R2.id) :
    ((Models.Pairs.add sq S R).1 = sq.connectionID + 1 ∧
     (Models.Pairs.add sq S R).2.connectionID = sq.connectionID + 1 ∧
     jget (Models.Pairs.add sq S R).2.connections (sq.connectionID + 1) =
       some { id := some (sq.connectionID + 1), sender := S, receiver := R } ∧
     jget (Models.Pairs.add sq S R).2.indices S.id = some (sq.connectionID + 1) ∧
     jget (Models.Pairs.add sq S R).2.indices R.id = some (sq.connectionID + 1)) ∧
    (jget (Handlers.paired.add (Handlers.paired.run Handlers.pairedInit ops)
        S2 R2).byUser q = none ∧
     ∃ ref, jget (Handlers.paired.add (Handlers.paired.run Handlers.pairedInit
         ops) S2 R2).byUser S2.id = some ref ∧
       jget (Handlers.paired.add (Handlers.paired.run Handlers.pairedInit ops)
         S2 R2).byUser R2.id = some ref ∧
       jget (Handlers.paired.add (Handlers.paired.run Handlers.pairedInit ops)
         S2 R2).heap ref = some { sender := S2, receiver := R2 }) := by
  refine ⟨⟨rfl, rfl, ?_, ?_, ?_⟩, ?_, ?_⟩
  · simp [Models.Pairs.add, jget_jset]
  · by_cases hSR : S.id = R.id <;> simp [Models.Pairs.add, jget_jset, hSR]
  · simp [Models.Pairs.add, jget_jset]
  · exact paired_add_supersedes _ (paired_wf_reachable ops) S2 R2 ref0 q
      oldCon hsp hheap hq hqS hqR
  · refine ⟨(Handlers.paired.clear (Handlers.paired.clear
      (Handlers.paired.run Handlers.pairedInit ops) S2.id) R2.id).nextRef,
      ?_, ?_, ?_⟩ <;>
      simp [Handlers.paired.add, jget_jset, h2, Ne.symm h2]

theorem C4_witness :
    (jget (Handlers.paired.run Handlers.pairedInit
        [Handlers.PairedOp.addOp uA uC]).byUser uB.id = some 0 ∨
     jget (Handlers.paired.run Handlers.pairedInit
        [Handlers.PairedOp.addOp uA uC]).byUser uA.id = some 0) ∧
    jget (Handlers.paired.run Handlers.pairedInit
        [Handlers.PairedOp.addOp uA uC]).heap 0 = some conAC ∧
    ((5 : Nat) = conAC.sender.id ∨ (5 : Nat) = conAC.receiver.id) ∧
    (5 : Nat) ≠ uB.id ∧ (5 : Nat) ≠ uA.id ∧ uB.id ≠ uA.id ∧
    (((Models.Pairs.add Models.Pairs.initState uA uB).1 =
        Models.Pairs.initState.connectionID + 1 ∧
      (Models.Pairs.add Models.Pairs.initState uA uB).2.connectionID =
        Models.Pairs.initState.connectionID + 1 ∧
      jget (Models.Pairs.add Models.Pairs.initState uA uB).2.connections
          (Models.Pairs.initState.connectionID + 1) =
        some { id := some (Models.Pairs.initState.connectionID + 1),
               sender := uA, receiver := uB } ∧
      jget (Models.Pairs.add Models.Pairs.initState uA uB).2.indices uA.id =
        some (Models.Pairs.initState.connectionID + 1) ∧
      jget (Models.Pairs.add Models.Pairs.initState uA uB).2.indices uB.id =
        some (Models.Pairs.initState.connectionID + 1)) ∧
     (jget (Handlers.paired.add (Handlers.paired.run Handlers.pairedInit
         [Handlers.PairedOp.addOp uA uC]) uB uA).byUser 5 = none ∧
      ∃ ref, jget (Handlers.paired.add (Handlers.paired.run Handlers.pairedInit
          [Handlers.PairedOp.addOp uA uC]) uB uA).byUser uB.id = some ref ∧
        jget (Handlers.paired.add (Handlers.paired.run Handlers.pairedInit
          [Handlers.PairedOp.addOp uA uC]) uB uA).byUser uA.id = some ref ∧
        jget (Handlers.paired.add (Handlers.paired.run Handlers.pairedInit
          [Handlers.PairedOp.addOp uA uC]) uB uA).heap ref =
          some { sender := uB, receiver := uA })) :=
  ⟨by decide, by decide, by decide, by decide, by decide, by decide,
    C4_add_allocation_and_supersede Models.Pairs.initState uA uB
      [Handlers.PairedOp.addOp uA uC] uB uA 0 5 conAC (by decide) (by decide)
      (by decide) (by decide) (by decide) (by decide)⟩

theorem pairs_inv_init : Models.Pairs.inv Models.Pairs.initState := by
  refine ⟨?_, ?_, ?_⟩ <;> intro a b hb <;>
    simp [Models.Pairs.initState, jget] at hb

theorem pairs_inv_step (s : Models.PairsState) (op : Models.Pairs.PairsOp)
    (h : Models.Pairs.inv s) : Models.Pairs.inv (Models.Pairs.stepOp s op) := by
  obtain ⟨hIdx, hConB, hIdxB⟩ := h
  cases op with
  | addOp sen rcv =>
      simp only [Models.Pairs.stepOp, Models.Pairs.add]
      refine ⟨?_, ?_, ?_⟩
      · intro uid cid hget
        simp only at hget
        rw [jget_jset] at hget
        by_cases hR : uid = rcv.id
        · rw [if_pos hR] at hget
          cases hget
          refine ⟨Models.Connection.mk (some (s.connectionID + 1)) sen false
            rcv false "INIT", ?_, Or.inr hR.symm⟩
          rw [jget_jset, if_pos rfl]
        · rw [if_neg hR, jget_jset] at hget
          by_cases hS : uid = sen.id
          · rw [if_pos hS] at hget
            cases hget
            refine ⟨Models.Connection.mk (some (s.connectionID + 1)) sen false
              rcv false "INIT", ?_, Or.inl hS.symm⟩
            rw [jget_jset, if_pos rfl]
          · rw [if_neg hS, jget_jdel, if_neg hR, jget_jdel, if_neg hS] at hget
            obtain ⟨con0, hcon0, hpart⟩ := hIdx uid cid hget
            have hb := hIdxB uid cid hget
            refine ⟨con0, ?_, hpart⟩
            rw [jget_jset, if_neg (by omega)]
            exact hcon0
      · intro cid con0 hget
        simp only at hget
        rw [jget_jset] at hget
        by_cases hc : cid = s.connectionID + 1
        · show cid ≤ s.connectionID + 1
          omega
        · rw [if_neg hc] at hget
          have := hConB cid con0 hget
          show cid ≤ s.connectionID + 1
          omega
      · intro uid cid hget
        simp only at hget
        rw [jget_jset] at hget
        by_cases hR : uid = rcv.id
        · rw [if_pos hR] at hget
          cases hget
          simp
        · rw [if_neg hR, jget_jset] at hget
          by_cases hS : uid = sen.id
          · rw [if_pos hS] at hget
            cases hget
            simp
          · rw [if_neg hS, jget_jdel, if_neg hR, jget_jdel, if_neg hS] at hget
            have := hIdxB uid cid hget
            show cid ≤ s.connectionID + 1
            omega
  | confirmOp cid0 uid0 =>
      simp only [Models.Pairs.stepOp, Models.Pairs.confirm]
      cases hc : jget s.connections cid0 with
      | none => exact ⟨hIdx, hConB, hIdxB⟩
      | some con =>
          simp only
          have hsend : (if con.sender.id = uid0 then
              { con with senderConfirmed := true }
            else { con with receiverConfirmed := true }).sender = con.sender := by
            by_cases h0 : con.sender.id = uid0 <;> simp [h0]
          have hrecv : (if con.sender.id = uid0 then
              { con with senderConfirmed := true }
            else { con with receiverConfirmed := true }).receiver = con.receiver := by
            by_cases h0 : con.sender.id = uid0 <;> simp [h0]
          refine ⟨?_, ?_, ?_⟩
          · intro uid cid hget
            simp only at hget
            obtain ⟨con2, hcon2, hpart⟩ := hIdx uid cid hget
            by_cases hcid : cid = cid0
            · subst hcid
              rw [hc] at hcon2
              cases hcon2
              refine ⟨_, by rw [jget_jset, if_pos rfl], ?_⟩
              rw [hsend, hrecv]
              exact hpart
            · refine ⟨con2, ?_, hpart⟩
              rw [jget_jset, if_neg hcid]
              exact hcon2
          · intro cid con2 hget
            simp only at hget ⊢
            rw [jget_jset] at hget
            by_cases hcid : cid = cid0
            · subst hcid
              exact hConB cid con hc
            · rw [if_neg hcid] at hget
              exact hConB cid con2 hget
          · exact hIdxB
  | clearOp cid0 fu =>
      simp only [Models.Pairs.stepOp, Models.Pairs.clear]
      cases hc : jget s.connections cid0 with
      | none => exact ⟨hIdx, hConB, hIdxB⟩
      | some con =>
          simp only
          refine ⟨?_, ?_, ?_⟩
          · intro uid cid hget
            simp only at hget
            rw [jget_jdel] at hget
            by_cases h1 : uid = con.receiver.id
            · rw [if_pos h1] at hget; cases hget
            · rw [if_neg h1, jget_jdel] at hget
              by_cases h2 : uid = con.sender.id
              · rw [if_pos h2] at hget; cases hget
              · rw [if_neg h2] at hget
                obtain ⟨con2, hcon2, hpart⟩ := hIdx uid cid hget
                by_cases hcid : cid = cid0
                · subst hcid
                  rw [hc] at hcon2
                  cases hcon2
                  rcases hpart with hp | hp
                  · exact absurd hp.symm h2
                  · exact absurd hp.symm h1
                · refine ⟨con2, ?_, hpart⟩
                  rw [jget_jdel, if_neg hcid]
                  exact hcon2
          · intro cid con2 hget
            simp only at hget ⊢
            rw [jget_jdel] at hget
            by_cases hcid : cid = cid0
            · rw [if_pos hcid] at hget; cases hget
            · rw [if_neg hcid] at hget
              exact hConB cid con2 hget
          · intro uid cid hget
            simp only at hget ⊢
            rw [jget_jdel] at hget
            by_cases h1 : uid = con.receiver.id
            · rw [if_pos h1] at hget; cases hget
            · rw [if_neg h1, jget_jdel] at hget
              by_cases h2 : uid = con.sender.id
              · rw [if_pos h2] at hget; cases hget
              · rw [if_neg h2] at hget
                exact hIdxB uid cid hget

theorem pairs_inv_run (ops : List Models.Pairs.PairsOp) :
    ∀ s : Models.PairsState, Models.Pairs.inv s →
      Models.Pairs.inv (Models.Pairs.run s ops) := by
  induction ops with
  | nil => intro s h; simpa [Models.Pairs.run] using h
  | cons op t ih =>
      intro s h
      simp only [Models.Pairs.run]
      exact ih _ (pairs_inv_step s op h)

/-- C1 counterexample: starting from the empty registry, the reachable
state after `Pairs.add(uA, uB)` followed by `Pairs.add(uA, uB)` violates
the claimed two-directional index consistency: connection 1 is still
alive in the primary store with sender id 1, but the index entry for
id 1 points to connection 2, not 1. -/
theorem C1_counterexample :
    ¬ Models.Pairs.indexConsistent (Models.Pairs.run Models.Pairs.initState
        [Models.Pairs.PairsOp.addOp uA uB,
         Models.Pairs.PairsOp.addOp uA uB]) := by
  intro h
  have h1 := h.1 1 { id := some 1, sender := uA, receiver := uB } (by decide)
  exact absurd h1.1 (by decide)

/-- C1 (amended): in every state reachable by any sequence of
`Pairs.add`, `Pairs.confirm` and `Pairs.clear` operations from the empty
registry, every secondary-index entry points to a live connection in the
primary store having that identity as a participant; the converse
direction of the claimed consistency — that every live connection has
both of its participants' index entries pointing back to it — does not
hold, because `Pairs.add` re-points the index entries of a participant
without clearing that participant's pre-existing connection. -/
theorem C1_index_entries_sound (ops : List Models.Pairs.PairsOp) (uid cid : Nat)
    (h : jget (Models.Pairs.run Models.Pairs.initState ops).indices uid =
      some cid) :
    ∃ con, jget (Models.Pairs.run Models.Pairs.initState ops).connections cid =
        some con ∧ (con.sender.id = uid ∨ con.receiver.id = uid) :=
  (pairs_inv_run ops Models.Pairs.initState pairs_inv_init).1 uid cid h

theorem C1_witness :
    jget (Models.Pairs.run Models.Pairs.initState
        [Models.Pairs.PairsOp.addOp uA uB]).indices 1 = some 1 ∧
    ∃ con, jget (Models.Pairs.run Models.Pairs.initState
        [Models.Pairs.PairsOp.addOp uA uB]).connections 1 = some con ∧
      (con.sender.id = 1 ∨ con.receiver.id = 1) :=
  ⟨by decide,
    C1_index_entries_sound [Models.Pairs.PairsOp.addOp uA uB] 1 1 (by decide)⟩
